import Mathlib

/-!
Shallow embedding of the API-log analytics pipeline (src/config.py,
src/utils.py, src/function.py) and proofs about it.

Modelling conventions:
* Timestamps are absolute UTC instants modelled as integer seconds.
  `parse_timestamp` of an ISO-8601 string is abstracted: a raw record
  carries the parse result (`none` = malformed text).
* Python `float` arithmetic is modelled by exact rationals `ℚ`; Python
  `round(x, n)` is modelled by decimal round-half-to-even (`roundDec`).
* Python dicts preserve insertion order; grouping maps are modelled by
  the list of keys in first-occurrence order (`firstOccs`) together with
  per-key folds over the filtered input, which yields the same contents
  in the same order as the dict accumulation in the source.
* Strings that the source builds only for presentation (recommendation
  text, ISO rendering of the time range) are modelled structurally:
  the report keeps the underlying values in the same order.
-/

set_option maxRecDepth 100000

namespace ApiLogs

/-- Python `round` to an integer: round half to even (banker's rounding). -/
def pyRound (x : ℚ) : ℤ :=
  let f := ⌊x⌋
  let r := x - (f : ℚ)
  if r < 1/2 then f
  else if 1/2 < r then f + 1
  else if f % 2 = 0 then f else f + 1

/-- Python `round(x, n)`: round to `n` decimal places, half to even. -/
def roundDec (n : ℕ) (x : ℚ) : ℚ :=
  (pyRound (x * (10 : ℚ) ^ n) : ℚ) / (10 : ℚ) ^ n

/-! ## config.py -/

/-- Ordered severity thresholds (`medium < high < critical`). -/
structure Thresholds where
  medium : ℚ
  high : ℚ
  critical : ℚ
deriving DecidableEq

/-- config.py `SEVERITY_THRESHOLDS_MS`. -/
def SEVERITY_THRESHOLDS_MS : Thresholds := { medium := 500, high := 1000, critical := 2000 }

/-- config.py `ERROR_RATE_THRESHOLDS_PERCENT`. -/
def ERROR_RATE_THRESHOLDS_PERCENT : Thresholds := { medium := 5, high := 10, critical := 15 }

/-- config.py `COST_PER_REQUEST_USD = 0.0001`. -/
def COST_PER_REQUEST_USD : ℚ := 1/10000

/-- config.py `COST_PER_MS_EXECUTION_USD = 0.000002`. -/
def COST_PER_MS_EXECUTION_USD : ℚ := 2/1000000

/-- config.py `MEMORY_COST_BRACKETS`; `none` as the upper bound models `inf`. -/
def MEMORY_COST_BRACKETS : List (ℤ × Option ℤ × ℚ) :=
  [(0, some 1024, 1/100000), (1024, some 10240, 5/100000), (10240, none, 1/10000)]

/-- config.py `REQUEST_SPIKE_WINDOW_MINUTES`. -/
def REQUEST_SPIKE_WINDOW_MINUTES : ℕ := 5

/-- config.py `REQUEST_SPIKE_MULTIPLIER`. -/
def REQUEST_SPIKE_MULTIPLIER : ℚ := 3

/-- config.py `RESPONSE_DEGRADATION_MULTIPLIER`. -/
def RESPONSE_DEGRADATION_MULTIPLIER : ℚ := 2

/-- config.py `ERROR_CLUSTER_WINDOW_MINUTES`. -/
def ERROR_CLUSTER_WINDOW_MINUTES : ℕ := 5

/-- config.py `ERROR_CLUSTER_THRESHOLD`. -/
def ERROR_CLUSTER_THRESHOLD : ℕ := 10

/-- config.py `UNUSUAL_USER_SHARE_THRESHOLD = 0.5`. -/
def UNUSUAL_USER_SHARE_THRESHOLD : ℚ := 1/2

/-- config.py `DEFAULT_SLOW_ENDPOINT_THRESHOLD_MS`. -/
def DEFAULT_SLOW_ENDPOINT_THRESHOLD_MS : ℚ := 500

/-! ## Data model -/

/-- A raw input record (a Python attribute map).  Each field is
`none` when the key is absent.  For a present field the inner option is
the outcome of the coercion the source applies to it: for `timestamp`
the result of `parse_timestamp` on the string (`none` = ISO-8601 parse
failure), for the numeric fields the result of Python `int(v)`
(`none` = coercion raised), for the string fields the result of
`str(v)` (`none` = coercion raised; an empty string is rejected later
by `safe_str`). -/
structure RawRecord where
  timestamp : Option (Option ℤ)
  endpoint : Option (Option String)
  method : Option (Option String)
  response_time_ms : Option (Option ℤ)
  status_code : Option (Option ℤ)
  user_id : Option (Option String)
  request_size_bytes : Option (Option ℤ)
  response_size_bytes : Option (Option ℤ)
deriving DecidableEq

/-- A validated canonical request (output of utils.py `validate_log_entry`). -/
structure LogEntry where
  timestamp : ℤ
  endpoint : String
  method : String
  response_time_ms : ℤ
  status_code : ℤ
  user_id : String
  request_size_bytes : ℤ
  response_size_bytes : ℤ
deriving DecidableEq

/-! ## utils.py -/

/-- utils.py `is_error_status`. -/
def is_error_status (code : ℤ) : Bool := 400 ≤ code && code ≤ 599

/-- utils.py `safe_int` applied to the result of `int(v)`:
rejects coercion failure and negative values. -/
def safe_int (v : Option ℤ) : Option ℤ :=
  match v with
  | none => none
  | some iv => if 0 ≤ iv then some iv else none

/-- utils.py `safe_str` applied to the result of `str(v)`:
rejects coercion failure and the empty string. -/
def safe_str (v : Option String) : Option String :=
  match v with
  | none => none
  | some s => if s = "" then none else some s

/-- utils.py `validate_log_entry`: all eight fields must be present,
then every coercion must succeed, otherwise the record is dropped. -/
def validate_log_entry (e : RawRecord) : Option LogEntry :=
  match e.timestamp, e.endpoint, e.method, e.response_time_ms,
        e.status_code, e.user_id, e.request_size_bytes, e.response_size_bytes with
  | some tsv, some epv, some mv, some rtv, some scv, some uv, some reqv, some respv =>
    match tsv, safe_str epv, safe_str mv, safe_int rtv,
          safe_int scv, safe_str uv, safe_int reqv, safe_int respv with
    | some ts, some ep, some me, some rt, some st, some us, some rq, some rs =>
      some { timestamp := ts, endpoint := ep, method := me.toUpper,
             response_time_ms := rt, status_code := st, user_id := us,
             request_size_bytes := rq, response_size_bytes := rs }
    | _, _, _, _, _, _, _, _ => none
  | _, _, _, _, _, _, _, _ => none

/-- utils.py `severity_for_response_time`. -/
def severity_for_response_time (avg_ms : ℚ) (thresholds : Thresholds) : Option String :=
  if avg_ms > thresholds.critical then some "critical"
  else if avg_ms > thresholds.high then some "high"
  else if avg_ms > thresholds.medium then some "medium"
  else none

/-- utils.py `severity_for_error_rate`. -/
def severity_for_error_rate (err_rate_percent : ℚ) (thresholds : Thresholds) : Option String :=
  if err_rate_percent > thresholds.critical then some "critical"
  else if err_rate_percent > thresholds.high then some "high"
  else if err_rate_percent > thresholds.medium then some "medium"
  else none

/-- utils.py `timedelta_minutes`, in seconds. -/
def timedelta_minutes (m : ℕ) : ℤ := 60 * (m : ℤ)

/-- The body of the `while timestamps[left] < window_start` loop of
utils.py `sliding_window_counts`, running over the suffix of the list
from the current left index; `none` models the IndexError Python would
raise if the pointer ran off the end. -/
def advRun (suffix : List ℤ) (ws : ℤ) (idx : ℕ) : Option ℕ :=
  match suffix with
  | [] => none
  | x :: rest => if x < ws then advRun rest ws (idx + 1) else some idx

/-- Advance of the left pointer of utils.py `sliding_window_counts`. -/
def advanceLeft (ts : List ℤ) (ws : ℤ) (left : ℕ) : Option ℕ :=
  advRun (ts.drop left) ws left

/-- The `for right in range(len(timestamps))` loop of utils.py
`sliding_window_counts`, carrying the persistent left pointer. -/
def swcLoop (ts : List ℤ) (W : ℤ) : List ℕ → ℕ → Option (List (ℤ × ℕ))
  | [], _ => some []
  | r :: rs, left =>
    match ts.get? r with
    | none => none
    | some t =>
      match advanceLeft ts (t - W) left with
      | none => none
      | some l => (swcLoop ts W rs l).map (fun cs => (t, r - l + 1) :: cs)

/-- utils.py `sliding_window_counts` (timestamps in seconds,
window in minutes); `none` models an IndexError. -/
def sliding_window_counts (timestamps : List ℤ) (window_minutes : ℕ) :
    Option (List (ℤ × ℕ)) :=
  swcLoop timestamps (timedelta_minutes window_minutes) (List.range timestamps.length) 0

/-- utils.py `hourly_bucket`, as the hour number of the "HH:00" label. -/
def hourly_bucket (t : ℤ) : ℕ := (t.toNat / 3600) % 24

/-- Two-digit zero-padded rendering of a number below 100. -/
def pad2 (n : ℕ) : String := if n < 10 then "0" ++ toString n else toString n

/-- `strftime('%H:%M')` of an instant (seconds, UTC). -/
def formatHM (t : ℤ) : String :=
  pad2 ((t.toNat / 3600) % 24) ++ ":" ++ pad2 ((t.toNat % 3600) / 60)

/-! ## Order-preserving grouping and stable sorting

Python dicts preserve insertion order and Python sorts are stable, so
grouping maps are modelled by the key list in first-occurrence order and
sorts by a stable insertion sort. -/

/-- The keys of a Python dict built by successive insertion, in
first-occurrence order. -/
def firstOccs {α : Type} [DecidableEq α] : List α → List α
  | [] => []
  | x :: xs => x :: (firstOccs xs).filter (fun y => decide (y ≠ x))

/-- Insert into a sorted list, before the first element `y` with
`le x y` (stable, like Python's sort). -/
def insertLe {α : Type} (le : α → α → Bool) (x : α) : List α → List α
  | [] => [x]
  | y :: ys => if le x y then x :: y :: ys else y :: insertLe le x ys

/-- Stable insertion sort (models Python's stable `sort`/`sorted`). -/
def sortLe {α : Type} (le : α → α → Bool) : List α → List α
  | [] => []
  | x :: xs => insertLe le x (sortLe le xs)

/-- A Python `Counter` built by successive `counter[k] += 1`, as an
association list in first-insertion order. -/
def bumpCounter {α : Type} [DecidableEq α] (c : List (α × ℕ)) (k : α) : List (α × ℕ) :=
  match c with
  | [] => [(k, 1)]
  | kv :: rest => if kv.1 = k then (kv.1, kv.2 + 1) :: rest else kv :: bumpCounter rest k

/-- `Counter.most_common(1)[0]`: the first key of maximal count
(`most_common` sorts by count descending and is stable, so ties keep
first-insertion order). -/
def mostCommonPair {α : Type} (c : List (α × ℕ)) : Option (α × ℕ) :=
  c.foldl (fun best kv =>
    match best with
    | none => some kv
    | some b => if b.2 < kv.2 then some kv else some b) none

/-! ## function.py: report pieces -/

/-- function.py `_most_common_status`. -/
def _most_common_status (counter : List (ℤ × ℕ)) : Option ℤ :=
  (mostCommonPair counter).map (fun kv => kv.1)

/-- The overall summary (function.py `_calc_summary`).  The time range
is kept as the pair of instants that the source renders as ISO strings. -/
structure Summary where
  total_requests : ℕ
  time_range_start : Option ℤ
  time_range_end : Option ℤ
  avg_response_time_ms : ℚ
  error_rate_percentage : ℚ
deriving DecidableEq

/-- function.py `_calc_summary`. -/
def _calc_summary (valid_logs : List LogEntry) : Summary :=
  if valid_logs.length = 0 then
    { total_requests := 0, time_range_start := none, time_range_end := none,
      avg_response_time_ms := 0, error_rate_percentage := 0 }
  else
    let timestamps := valid_logs.map (fun l => l.timestamp)
    let total := valid_logs.length
    let sum_rt := (valid_logs.map (fun l => l.response_time_ms)).sum
    let errors := valid_logs.countP (fun l => is_error_status l.status_code)
    { total_requests := total,
      time_range_start := timestamps.min?,
      time_range_end := timestamps.max?,
      avg_response_time_ms := roundDec 3 ((sum_rt : ℚ) / (total : ℚ)),
      error_rate_percentage := roundDec 3 (((errors : ℚ) / (total : ℚ)) * 100) }

/-- The per-endpoint accumulator of utils.py `aggregate_by_endpoint`.
`none` for `slowest`/`fastest` models the `-inf`/`inf` start values. -/
structure EpAgg where
  count : ℕ
  sum_rt : ℤ
  slowest : Option ℤ
  fastest : Option ℤ
  error_count : ℕ
  status_counter : List (ℤ × ℕ)
deriving DecidableEq

/-- The start value of an endpoint accumulator. -/
def emptyAgg : EpAgg :=
  { count := 0, sum_rt := 0, slowest := none, fastest := none,
    error_count := 0, status_counter := [] }

/-- One update of the accumulator (the loop body of
utils.py `aggregate_by_endpoint`). -/
def epAggStep (s : EpAgg) (l : LogEntry) : EpAgg :=
  { count := s.count + 1,
    sum_rt := s.sum_rt + l.response_time_ms,
    slowest := some (match s.slowest with
      | none => l.response_time_ms
      | some m => max m l.response_time_ms),
    fastest := some (match s.fastest with
      | none => l.response_time_ms
      | some m => min m l.response_time_ms),
    error_count := s.error_count + (if is_error_status l.status_code then 1 else 0),
    status_counter := bumpCounter s.status_counter l.status_code }

/-- utils.py `aggregate_by_endpoint`: endpoints in dict insertion
(first-occurrence) order, each with the fold of its own records. -/
def aggregate_by_endpoint (valid_logs : List LogEntry) : List (String × EpAgg) :=
  (firstOccs (valid_logs.map (fun l => l.endpoint))).map
    (fun ep => (ep, (valid_logs.filter (fun l => l.endpoint == ep)).foldl epAggStep emptyAgg))

/-- One entry of the per-endpoint statistics list. -/
structure EndpointStat where
  endpoint : String
  request_count : ℕ
  avg_response_time_ms : ℚ
  slowest_request_ms : ℤ
  fastest_request_ms : ℤ
  error_count : ℕ
  most_common_status : Option ℤ
deriving DecidableEq

/-- function.py `_calc_endpoint_stats`. -/
def _calc_endpoint_stats (valid_logs : List LogEntry) : List EndpointStat :=
  let stats := (aggregate_by_endpoint valid_logs).map (fun eps =>
    let s := eps.2
    { endpoint := eps.1,
      request_count := s.count,
      avg_response_time_ms :=
        roundDec 3 (if s.count ≠ 0 then (s.sum_rt : ℚ) / (s.count : ℚ) else 0),
      slowest_request_ms := s.slowest.getD 0,
      fastest_request_ms := s.fastest.getD 0,
      error_count := s.error_count,
      most_common_status := _most_common_status s.status_counter })
  sortLe (fun a b => decide (a.endpoint ≤ b.endpoint)) stats

/-- One performance issue (function.py `_detect_performance_issues`). -/
inductive PerformanceIssue
  | slow_endpoint (endpoint : String) (avg_response_time_ms : ℚ)
      (threshold_ms : ℚ) (severity : String)
  | high_error_rate (endpoint : String) (error_rate_percentage : ℚ) (severity : String)
deriving DecidableEq

/-- function.py `_detect_performance_issues`. -/
def _detect_performance_issues (endpoint_stats : List EndpointStat) : List PerformanceIssue :=
  (endpoint_stats.map (fun s =>
    let sev := severity_for_response_time s.avg_response_time_ms SEVERITY_THRESHOLDS_MS
    let first : List PerformanceIssue := match sev with
      | some sv =>
          [PerformanceIssue.slow_endpoint s.endpoint s.avg_response_time_ms
            DEFAULT_SLOW_ENDPOINT_THRESHOLD_MS sv]
      | none => []
    let err_rate : ℚ :=
      if s.request_count ≠ 0 then ((s.error_count : ℚ) / (s.request_count : ℚ)) * 100 else 0
    let second : List PerformanceIssue := match severity_for_error_rate err_rate ERROR_RATE_THRESHOLDS_PERCENT with
      | some sv => [PerformanceIssue.high_error_rate s.endpoint (roundDec 3 err_rate) sv]
      | none => []
    first ++ second)).flatten

/-- One recommendation line (function.py `_recommendations`); the
source formats these as strings, modelled here structurally. -/
inductive Recommendation
  | investigate_performance (endpoint : String) (avg_ms : ℚ) (threshold_ms : ℚ)
  | alert_error_rate (endpoint : String) (error_rate_percentage : ℚ)
deriving DecidableEq

/-- function.py `_recommendations`. -/
def _recommendations (endpoint_stats : List EndpointStat) : List Recommendation :=
  (endpoint_stats.map (fun s =>
    let first : List Recommendation :=
      if SEVERITY_THRESHOLDS_MS.medium < s.avg_response_time_ms then
        [Recommendation.investigate_performance s.endpoint s.avg_response_time_ms
          SEVERITY_THRESHOLDS_MS.medium]
      else []
    let err_rate : ℚ :=
      if s.request_count ≠ 0 then ((s.error_count : ℚ) / (s.request_count : ℚ)) * 100 else 0
    let second : List Recommendation :=
      if ERROR_RATE_THRESHOLDS_PERCENT.medium < err_rate then
        [Recommendation.alert_error_rate s.endpoint (roundDec 3 err_rate)]
      else []
    first ++ second)).flatten

/-- function.py `_hourly_distribution`: hour buckets sorted ascending
with their counts (the "HH:00" label is determined by the hour). -/
def _hourly_distribution (valid_logs : List LogEntry) : List (ℕ × ℕ) :=
  let hours := valid_logs.map (fun l => hourly_bucket l.timestamp)
  (sortLe (fun a b => decide (a ≤ b)) (firstOccs hours)).map (fun h => (h, hours.count h))

/-- function.py `_top_users`: `Counter.most_common(top_n)`, i.e. the
stable descending sort by count of the first-occurrence counter. -/
def _top_users (valid_logs : List LogEntry) (top_n : ℕ) : List (String × ℕ) :=
  let users := valid_logs.map (fun l => l.user_id)
  let pairs := (firstOccs users).map (fun u => (u, users.count u))
  (sortLe (fun a b => decide (b.2 ≤ a.2)) pairs).take top_n

/-! ## function.py: Option A — cost estimation -/

/-- function.py `_memory_cost`: first bracket with `low ≤ b < high`. -/
def _memory_cost (bytes_count : ℤ) : ℚ :=
  match MEMORY_COST_BRACKETS.find? (fun br =>
      decide (br.1 ≤ bytes_count) &&
      (match br.2.1 with
       | none => true
       | some high => decide (bytes_count < high))) with
  | some br => br.2.2
  | none => 0

/-- The three cost categories. -/
structure CostBreakdown where
  request_costs : ℚ
  execution_costs : ℚ
  memory_costs : ℚ
deriving DecidableEq

/-- Per-endpoint cost entry. -/
structure EndpointCost where
  endpoint : String
  total_cost : ℚ
  cost_per_request : ℚ
deriving DecidableEq

/-- The cost analysis block of the report. -/
structure CostAnalysis where
  total_cost_usd : ℚ
  cost_breakdown : CostBreakdown
  cost_by_endpoint : List EndpointCost
  optimization_potential_usd : ℚ
deriving DecidableEq

/-- The exact (unrounded) per-request category total of
function.py `_cost_analysis`. -/
def totalRequestCost (valid_logs : List LogEntry) : ℚ :=
  (valid_logs.length : ℚ) * COST_PER_REQUEST_USD

/-- The exact (unrounded) execution category total. -/
def totalExecutionCost (valid_logs : List LogEntry) : ℚ :=
  (valid_logs.map (fun l => (l.response_time_ms : ℚ) * COST_PER_MS_EXECUTION_USD)).sum

/-- The exact (unrounded) memory category total. -/
def totalMemoryCost (valid_logs : List LogEntry) : ℚ :=
  (valid_logs.map (fun l => _memory_cost l.response_size_bytes)).sum

/-- function.py `_cost_analysis`. -/
def _cost_analysis (valid_logs : List LogEntry) (endpoint_stats : List EndpointStat) :
    CostAnalysis :=
  let eps := firstOccs (valid_logs.map (fun l => l.endpoint))
  let cost_by_endpoint := (sortLe (fun a b => decide (a ≤ b)) eps).map (fun ep =>
    let epLogs := valid_logs.filter (fun l => l.endpoint == ep)
    let total : ℚ := (epLogs.map (fun l =>
      COST_PER_REQUEST_USD + (l.response_time_ms : ℚ) * COST_PER_MS_EXECUTION_USD +
        _memory_cost l.response_size_bytes)).sum
    let count := epLogs.length
    { endpoint := ep,
      total_cost := roundDec 6 total,
      cost_per_request := roundDec 6 (if count ≠ 0 then total / (count : ℚ) else 0) })
  let total_cost := totalRequestCost valid_logs + totalExecutionCost valid_logs +
    totalMemoryCost valid_logs
  let potential_savings : ℚ := (endpoint_stats.map (fun s =>
    if SEVERITY_THRESHOLDS_MS.medium < s.avg_response_time_ms then
      (s.avg_response_time_ms - SEVERITY_THRESHOLDS_MS.medium) *
        COST_PER_MS_EXECUTION_USD * (s.request_count : ℚ)
    else 0)).sum
  { total_cost_usd := roundDec 6 total_cost,
    cost_breakdown :=
      { request_costs := roundDec 6 (totalRequestCost valid_logs),
        execution_costs := roundDec 6 (totalExecutionCost valid_logs),
        memory_costs := roundDec 6 (totalMemoryCost valid_logs) },
    cost_by_endpoint := cost_by_endpoint,
    optimization_potential_usd := roundDec 6 potential_savings }

/-! ## function.py: Option B — anomaly detection -/

/-- One anomaly finding. -/
inductive Anomaly
  | request_spike (endpoint : String) (timestamp : ℤ) (normal_rate : ℤ)
      (actual_rate : ℕ) (severity : String)
  | response_time_degradation (endpoint : String) (recent_avg_ms : ℚ)
      (overall_avg_ms : ℚ) (severity : String)
  | error_cluster (endpoint : String) (time_window : String)
      (error_count : ℕ) (severity : String)
  | unusual_user_behavior (user_id : String) (share_percentage : ℚ) (severity : String)
deriving DecidableEq

/-- The ascending-sorted timestamps of one endpoint's requests. -/
def epTimestampsSorted (valid_logs : List LogEntry) (ep : String) : List ℤ :=
  sortLe (fun a b => decide (a ≤ b))
    ((valid_logs.filter (fun l => l.endpoint == ep)).map (fun l => l.timestamp))

/-- `max(1, int((max - min).total_seconds() // 60) or 1)` of
function.py `_anomalies` (request-spike part). -/
def durationMinutesOf (ts : List ℤ) : ℤ :=
  let m := ((ts.max?.getD 0) - (ts.min?.getD 0)) / 60
  max 1 (if m = 0 then 1 else m)

/-- The per-endpoint normal rate of the request-spike heuristic:
`len(ts) / max(1, duration_minutes / 5)`. -/
def normalRateOf (valid_logs : List LogEntry) (ep : String) : ℚ :=
  let ts := epTimestampsSorted valid_logs ep
  let windows : ℚ :=
    max 1 ((durationMinutesOf ts : ℚ) / (REQUEST_SPIKE_WINDOW_MINUTES : ℚ))
  (ts.length : ℚ) / windows

/-- The request-spike scan of one endpoint: the first sliding window
whose count exceeds `REQUEST_SPIKE_MULTIPLIER * normal_rate` (then the
loop breaks). -/
def requestSpikeFor (valid_logs : List LogEntry) (ep : String) : Option Anomaly :=
  let ts := epTimestampsSorted valid_logs ep
  let normal_rate := normalRateOf valid_logs ep
  match sliding_window_counts ts REQUEST_SPIKE_WINDOW_MINUTES with
  | none => none
  | some counts =>
    (counts.find? (fun tc =>
        decide (REQUEST_SPIKE_MULTIPLIER * normal_rate < (tc.2 : ℚ)) &&
        decide (1 ≤ tc.2))).map
      (fun tc => Anomaly.request_spike ep tc.1 ⌊normal_rate⌋ tc.2
        (if 2 * REQUEST_SPIKE_MULTIPLIER * normal_rate < (tc.2 : ℚ) then "high" else "medium"))

/-- The response-time-degradation check of one endpoint (the most
recent 10% of its time-sorted requests against the overall mean). -/
def degradationFor (valid_logs : List LogEntry) (ep : String) : Option Anomaly :=
  let sorted_logs := sortLe (fun a b => decide (a.timestamp ≤ b.timestamp))
    (valid_logs.filter (fun l => l.endpoint == ep))
  let n := sorted_logs.length
  if n < 5 then none
  else
    let recent := sorted_logs.drop (⌊(n : ℚ) * (9/10)⌋).toNat
    let recent_avg : ℚ :=
      ((recent.map (fun l => (l.response_time_ms : ℚ))).sum) / (recent.length : ℚ)
    let overall_avg : ℚ :=
      ((sorted_logs.map (fun l => (l.response_time_ms : ℚ))).sum) / (n : ℚ)
    if RESPONSE_DEGRADATION_MULTIPLIER * overall_avg < recent_avg ∧
        SEVERITY_THRESHOLDS_MS.medium < recent_avg then
      some (Anomaly.response_time_degradation ep (roundDec 3 recent_avg) (roundDec 3 overall_avg)
        (if RESPONSE_DEGRADATION_MULTIPLIER * overall_avg * (3/2) < recent_avg
         then "high" else "medium"))
    else none

/-- The error-status timestamps of one endpoint, in input order. -/
def errTimestamps (valid_logs : List LogEntry) (ep : String) : List ℤ :=
  (valid_logs.filter (fun l => l.endpoint == ep && is_error_status l.status_code)).map
    (fun l => l.timestamp)

/-- The error-cluster scan of one endpoint: the first sliding window
holding at least `ERROR_CLUSTER_THRESHOLD` errors (then the loop breaks). -/
def errorClusterFor (valid_logs : List LogEntry) (ep : String) : Option Anomaly :=
  let ts := sortLe (fun a b => decide (a ≤ b)) (errTimestamps valid_logs ep)
  match sliding_window_counts ts ERROR_CLUSTER_WINDOW_MINUTES with
  | none => none
  | some counts =>
    (counts.find? (fun tc => decide (ERROR_CLUSTER_THRESHOLD ≤ tc.2))).map
      (fun tc => Anomaly.error_cluster ep
        (formatHM (tc.1 - timedelta_minutes ERROR_CLUSTER_WINDOW_MINUTES) ++ "-" ++ formatHM tc.1)
        tc.2 (if ERROR_CLUSTER_THRESHOLD * 2 ≤ tc.2 then "critical" else "high"))

/-- The per-user request counter, in first-occurrence order. -/
def userCounts (valid_logs : List LogEntry) : List (String × ℕ) :=
  let users := valid_logs.map (fun l => l.user_id)
  (firstOccs users).map (fun u => (u, users.count u))

/-- The unusual-user-share check: the single most frequent user, if its
share exceeds `UNUSUAL_USER_SHARE_THRESHOLD`. -/
def unusualUserAnomalies (valid_logs : List LogEntry) : List Anomaly :=
  let total := valid_logs.length
  match mostCommonPair (userCounts valid_logs) with
  | none => []
  | some uc =>
    let share : ℚ := (uc.2 : ℚ) / (total : ℚ)
    if UNUSUAL_USER_SHARE_THRESHOLD < share then
      [Anomaly.unusual_user_behavior uc.1 (roundDec 3 (share * 100))
        (if (7/10 : ℚ) < share then "high" else "medium")]
    else []

/-- function.py `_anomalies` (its `endpoint_stats` parameter is unused
in the source).  Each heuristic appends its findings in endpoint
first-occurrence order. -/
def _anomalies (valid_logs : List LogEntry) : List Anomaly :=
  if valid_logs.isEmpty then []
  else
    let eps := firstOccs (valid_logs.map (fun l => l.endpoint))
    let errEps := firstOccs
      ((valid_logs.filter (fun l => is_error_status l.status_code)).map (fun l => l.endpoint))
    (eps.filterMap (requestSpikeFor valid_logs)) ++
    (eps.filterMap (degradationFor valid_logs)) ++
    (errEps.filterMap (errorClusterFor valid_logs)) ++
    unusualUserAnomalies valid_logs

/-! ## function.py: the report -/

/-- The final report of function.py `analyze_api_logs`. -/
structure Report where
  summary : Summary
  endpoint_stats : List EndpointStat
  performance_issues : List PerformanceIssue
  recommendations : List Recommendation
  hourly_distribution : List (ℕ × ℕ)
  top_users_by_requests : List (String × ℕ)
  cost_analysis : CostAnalysis
  anomalies : List Anomaly
deriving DecidableEq

/-- function.py `analyze_api_logs`. -/
def analyze_api_logs (logs : List RawRecord) : Report :=
  let valid_logs := logs.filterMap validate_log_entry
  let endpoint_stats := _calc_endpoint_stats valid_logs
  { summary := _calc_summary valid_logs,
    endpoint_stats := endpoint_stats,
    performance_issues := _detect_performance_issues endpoint_stats,
    recommendations := _recommendations endpoint_stats,
    hourly_distribution := _hourly_distribution valid_logs,
    top_users_by_requests := _top_users valid_logs 5,
    cost_analysis := _cost_analysis valid_logs endpoint_stats,
    anomalies := _anomalies valid_logs }

/-! ## Executable equality helpers

The derived decidable equality on `ℚ` does not evaluate well, so
concrete equalities on rationals (and on values containing them) are
routed through `Bool`-valued comparators that inspect `num`/`den`. -/

/-- Executable equality test on `ℚ`. -/
def ratEqb (a b : ℚ) : Bool := (a.num == b.num) && (a.den == b.den)

theorem ratEqb_iff (a b : ℚ) : ratEqb a b = true ↔ a = b := by
  constructor
  · intro h
    simp only [ratEqb, Bool.and_eq_true, beq_iff_eq] at h
    exact Rat.ext h.1 h.2
  · intro h
    subst h
    simp [ratEqb]

/-- Executable equality test on `Anomaly`. -/
def anomalyEqb (a b : Anomaly) : Bool :=
  match a, b with
  | .request_spike e1 t1 n1 a1 s1, .request_spike e2 t2 n2 a2 s2 =>
    e1 == e2 && t1 == t2 && n1 == n2 && a1 == a2 && s1 == s2
  | .response_time_degradation e1 r1 o1 s1, .response_time_degradation e2 r2 o2 s2 =>
    e1 == e2 && ratEqb r1 r2 && ratEqb o1 o2 && s1 == s2
  | .error_cluster e1 w1 c1 s1, .error_cluster e2 w2 c2 s2 =>
    e1 == e2 && w1 == w2 && c1 == c2 && s1 == s2
  | .unusual_user_behavior u1 p1 s1, .unusual_user_behavior u2 p2 s2 =>
    u1 == u2 && ratEqb p1 p2 && s1 == s2
  | _, _ => false

theorem anomalyEqb_iff (a b : Anomaly) : anomalyEqb a b = true ↔ a = b := by
  cases a <;> cases b <;>
    simp [anomalyEqb, ratEqb_iff, and_assoc]

/-- Executable equality test on `List Anomaly`. -/
def anomListEqb : List Anomaly → List Anomaly → Bool
  | [], [] => true
  | a :: as, b :: bs => anomalyEqb a b && anomListEqb as bs
  | _, _ => false

theorem anomListEqb_iff (l1 l2 : List Anomaly) : anomListEqb l1 l2 = true ↔ l1 = l2 := by
  induction l1 generalizing l2 with
  | nil => cases l2 <;> simp [anomListEqb]
  | cons a as ih =>
    cases l2 with
    | nil => simp [anomListEqb]
    | cons b bs => simp [anomListEqb, anomalyEqb_iff, ih]

/-! ## Further definitions used by the statements -/

/-- The rank of a severity label in the order
`none < medium < high < critical`. -/
def severityRank (s : Option String) : ℕ :=
  match s with
  | none => 0
  | some sv => if sv = "medium" then 1 else if sv = "high" then 2
               else if sv = "critical" then 3 else 0

/-- Whether an anomaly is a `request_spike`. -/
def isRequestSpike (a : Anomaly) : Bool :=
  match a with
  | .request_spike _ _ _ _ _ => true
  | _ => false

/-- Whether an anomaly is an `unusual_user_behavior`. -/
def isUnusualUser (a : Anomaly) : Bool :=
  match a with
  | .unusual_user_behavior _ _ _ => true
  | _ => false

/-- Whether an anomaly is an `error_cluster` for the given endpoint. -/
def isErrorClusterFor (ep : String) (a : Anomaly) : Bool :=
  match a with
  | .error_cluster e _ _ _ => e == ep
  | _ => false

/-- A raw record with all eight fields present and all coercions
successful. -/
def mkRaw (t : ℤ) (ep meth : String) (rt status : ℤ) (user : String)
    (reqb respb : ℤ) : RawRecord :=
  { timestamp := some (some t), endpoint := some (some ep), method := some (some meth),
    response_time_ms := some (some rt), status_code := some (some status),
    user_id := some (some user), request_size_bytes := some (some reqb),
    response_size_bytes := some (some respb) }

/-- Some required field is absent from the raw record. -/
def missingField (e : RawRecord) : Prop :=
  e.timestamp = none ∨ e.endpoint = none ∨ e.method = none ∨ e.response_time_ms = none ∨
  e.status_code = none ∨ e.user_id = none ∨ e.request_size_bytes = none ∨
  e.response_size_bytes = none

/-- A present numeric field fails integer coercion or coerces to a
negative value. -/
def numericFieldBad (v : Option (Option ℤ)) : Prop :=
  v = some none ∨ ∃ iv, v = some (some iv) ∧ iv < 0

/-- A present string field is un-coercible or empty. -/
def stringFieldBad (v : Option (Option String)) : Prop :=
  v = some none ∨ v = some (some "")

/-- The C5 bad record: valid except for a negative response time. -/
def c5BadRecord : RawRecord := mkRaw 0 "/api/users" "GET" (-10) 200 "user_1" 512 2048

/-- The C5 good record. -/
def c5GoodRecord : RawRecord := mkRaw 0 "/api/users" "GET" 150 200 "user_1" 512 2048

/-- A raw record with every field absent (all-malformed input for C8). -/
def emptyRawRecord : RawRecord :=
  { timestamp := none, endpoint := none, method := none, response_time_ms := none,
    status_code := none, user_id := none, request_size_bytes := none,
    response_size_bytes := none }

/-- The C1 scenario: 20 requests to one endpoint at one-minute spacing
(minutes 0–19), then 15 further requests within the next minute. -/
def c1Raw : List RawRecord :=
  ((List.range 20).map (fun i => mkRaw (60 * (i : ℤ)) "/api/users" "GET" 100 200 "u" 512 1024)) ++
  ((List.range 15).map (fun i => mkRaw (1200 + 4 * (i : ℤ)) "/api/users" "GET" 100 200 "u" 512 1024))

/-- The valid records of the C1 scenario. -/
def c1Logs : List LogEntry := c1Raw.filterMap validate_log_entry

/-- The C2 record pair: same endpoint and timestamp, status 200 vs 404;
swapping them flips the `most_common_status` tie-break. -/
def c2A : RawRecord := mkRaw 0 "/a" "GET" 100 200 "u" 10 10

/-- The 404 partner of `c2A`. -/
def c2B : RawRecord := mkRaw 0 "/a" "GET" 100 404 "u" 10 10

/-- The C3 scenario: user `u0` issues 60 requests and 39 further users
issue one request each (99 requests in total). -/
def c3Raw : List RawRecord :=
  ((List.range 60).map (fun i => mkRaw (i : ℤ) "/api" "GET" 100 200 "u0" 512 1024)) ++
  ((List.range 39).map (fun i =>
    mkRaw (60 + (i : ℤ)) "/api" "GET" 100 200 ("v" ++ toString i) 512 1024))

/-- The C4 scenario: 10 error-status requests to one endpoint within a
5-minute (300-second) span. -/
def c4Raw : List RawRecord :=
  (List.range 10).map (fun i => mkRaw (30 * (i : ℤ)) "/e" "GET" 100 500 "u" 512 1024)

end ApiLogs

namespace ApiLogs

/-! ## C6: strict threshold classification -/

/-- C6: both severity classifiers return "critical" iff the value strictly
exceeds the critical threshold, else "high" iff strictly above the high
threshold, else "medium" iff strictly above the medium threshold, else
none, evaluated critical → high → medium with the first match winning;
a value exactly equal to a threshold never triggers that level. -/
theorem severity_classification_strict_first_match :
    ∀ (th : Thresholds) (v : ℚ),
      (severity_for_response_time v th = some "critical" ↔ th.critical < v) ∧
      (severity_for_response_time v th = some "high" ↔ ¬ th.critical < v ∧ th.high < v) ∧
      (severity_for_response_time v th = some "medium" ↔
        ¬ th.critical < v ∧ ¬ th.high < v ∧ th.medium < v) ∧
      (severity_for_response_time v th = none ↔
        ¬ th.critical < v ∧ ¬ th.high < v ∧ ¬ th.medium < v) ∧
      (severity_for_error_rate v th = severity_for_response_time v th) ∧
      (severity_for_response_time th.critical th ≠ some "critical") ∧
      (severity_for_response_time th.high th ≠ some "high") ∧
      (severity_for_response_time th.medium th ≠ some "medium") ∧
      (severity_for_error_rate th.critical th ≠ some "critical") ∧
      (severity_for_error_rate th.high th ≠ some "high") ∧
      (severity_for_error_rate th.medium th ≠ some "medium") := by
  intro th v
  refine ⟨?_, ?_, ?_, ?_, ?_, ?_, ?_, ?_, ?_, ?_, ?_⟩ <;>
    simp only [severity_for_response_time, severity_for_error_rate] <;>
    split_ifs <;> simp_all <;> linarith

/-! ## C7: monotonicity for the configured thresholds -/

/-- C7: with the configured thresholds, raising a metric value never
lowers its severity rank (none < medium < high < critical), and any
value strictly above the critical threshold classifies as "critical". -/
theorem severity_monotone_for_config (v1 v2 : ℚ) (h : v1 ≤ v2) :
    severityRank (severity_for_response_time v1 SEVERITY_THRESHOLDS_MS) ≤
      severityRank (severity_for_response_time v2 SEVERITY_THRESHOLDS_MS) ∧
    severityRank (severity_for_error_rate v1 ERROR_RATE_THRESHOLDS_PERCENT) ≤
      severityRank (severity_for_error_rate v2 ERROR_RATE_THRESHOLDS_PERCENT) ∧
    (SEVERITY_THRESHOLDS_MS.critical < v2 →
      severity_for_response_time v2 SEVERITY_THRESHOLDS_MS = some "critical") ∧
    (ERROR_RATE_THRESHOLDS_PERCENT.critical < v2 →
      severity_for_error_rate v2 ERROR_RATE_THRESHOLDS_PERCENT = some "critical") := by
  refine ⟨?_, ?_, ?_, ?_⟩ <;>
    simp only [severity_for_response_time, severity_for_error_rate,
      SEVERITY_THRESHOLDS_MS, ERROR_RATE_THRESHOLDS_PERCENT] <;>
    split_ifs <;> simp_all [severityRank] <;> linarith

/-- Witness for C7 at `v1 = 1 ≤ v2 = 3000`. -/
theorem severity_monotone_for_config_witness :
    (1 : ℚ) ≤ 3000 ∧
    severityRank (severity_for_response_time 1 SEVERITY_THRESHOLDS_MS) ≤
      severityRank (severity_for_response_time 3000 SEVERITY_THRESHOLDS_MS) ∧
    severity_for_response_time 3000 SEVERITY_THRESHOLDS_MS = some "critical" ∧
    severity_for_error_rate 3000 ERROR_RATE_THRESHOLDS_PERCENT = some "critical" := by
  have h := severity_monotone_for_config 1 3000 (by norm_num)
  exact ⟨by norm_num, h.1,
    h.2.2.1 (by simp [SEVERITY_THRESHOLDS_MS]; norm_num),
    h.2.2.2 (by simp [ERROR_RATE_THRESHOLDS_PERCENT]; norm_num)⟩

/-! ## C9: cost total versus breakdown -/

theorem abs_pyRound_sub_le (x : ℚ) : |(pyRound x : ℚ) - x| ≤ 1/2 := by
  have hfl : (⌊x⌋ : ℚ) ≤ x := Int.floor_le x
  have hfu : x < (⌊x⌋ : ℚ) + 1 := Int.lt_floor_add_one x
  rw [pyRound]
  split_ifs with h1 h2 h3 <;> rw [abs_le] <;> constructor <;> push_cast <;> linarith

theorem abs_roundDec_sub_le (n : ℕ) (x : ℚ) :
    |roundDec n x - x| ≤ 1 / (2 * 10 ^ n) := by
  have hpow : (0:ℚ) < 10 ^ n := by positivity
  have key : roundDec n x - x =
      ((pyRound (x * 10 ^ n) : ℚ) - x * 10 ^ n) / 10 ^ n := by
    rw [roundDec]
    field_simp
    ring
  rw [key, abs_div, abs_of_pos hpow]
  rw [div_le_iff hpow]
  have h := abs_pyRound_sub_le (x * 10 ^ n)
  calc |(pyRound (x * 10 ^ n) : ℚ) - x * 10 ^ n| ≤ 1/2 := h
    _ ≤ 1 / (2 * 10 ^ n) * 10 ^ n := by
        rw [div_mul_eq_mul_div, le_div_iff (by positivity)]
        ring_nf
        nlinarith [hpow]

/-- C9: the reported total cost is the exact sum of the three category
totals rounded to 6 decimals, each breakdown component is the category
total rounded to 6 decimals, and hence the total equals the sum of the
three breakdown components to within rounding (at most `2e-6` apart). -/
theorem cost_total_matches_breakdown_within_rounding :
    ∀ raw : List RawRecord,
      ((analyze_api_logs raw).cost_analysis.total_cost_usd =
        roundDec 6 (totalRequestCost (raw.filterMap validate_log_entry) +
          totalExecutionCost (raw.filterMap validate_log_entry) +
          totalMemoryCost (raw.filterMap validate_log_entry))) ∧
      ((analyze_api_logs raw).cost_analysis.cost_breakdown.request_costs =
        roundDec 6 (totalRequestCost (raw.filterMap validate_log_entry))) ∧
      ((analyze_api_logs raw).cost_analysis.cost_breakdown.execution_costs =
        roundDec 6 (totalExecutionCost (raw.filterMap validate_log_entry))) ∧
      ((analyze_api_logs raw).cost_analysis.cost_breakdown.memory_costs =
        roundDec 6 (totalMemoryCost (raw.filterMap validate_log_entry))) ∧
      |(analyze_api_logs raw).cost_analysis.total_cost_usd -
        ((analyze_api_logs raw).cost_analysis.cost_breakdown.request_costs +
         (analyze_api_logs raw).cost_analysis.cost_breakdown.execution_costs +
         (analyze_api_logs raw).cost_analysis.cost_breakdown.memory_costs)| ≤ 2/1000000 := by
  intro raw
  refine ⟨rfl, rfl, rfl, rfl, ?_⟩
  have hS := abs_roundDec_sub_le 6 (totalRequestCost (raw.filterMap validate_log_entry) +
    totalExecutionCost (raw.filterMap validate_log_entry) +
    totalMemoryCost (raw.filterMap validate_log_entry))
  have h1 := abs_roundDec_sub_le 6 (totalRequestCost (raw.filterMap validate_log_entry))
  have h2 := abs_roundDec_sub_le 6 (totalExecutionCost (raw.filterMap validate_log_entry))
  have h3 := abs_roundDec_sub_le 6 (totalMemoryCost (raw.filterMap validate_log_entry))
  have hval : (1 : ℚ) / (2 * 10 ^ 6) = 1/2000000 := by norm_num
  rw [hval] at hS h1 h2 h3
  rw [abs_le] at hS h1 h2 h3 ⊢
  show _ ∧ (analyze_api_logs raw).cost_analysis.total_cost_usd - _ ≤ _
  simp only [analyze_api_logs, _cost_analysis]
  constructor <;> [linarith [hS.1, hS.2, h1.1, h1.2, h2.1, h2.2, h3.1, h3.2];
    linarith [hS.1, hS.2, h1.1, h1.2, h2.1, h2.2, h3.1, h3.2]]

/-! ## C8: degenerate inputs -/

/-- C8: the empty input, and any input in which every record is
rejected by validation, produce the zeroed well-formed report:
no requests, null time range, zero averages, no endpoint stats and no
anomalies. -/
theorem degenerate_inputs_yield_zeroed_report :
    ((analyze_api_logs []).summary.total_requests = 0 ∧
     (analyze_api_logs []).summary.time_range_start = none ∧
     (analyze_api_logs []).summary.time_range_end = none ∧
     (analyze_api_logs []).summary.avg_response_time_ms = 0 ∧
     (analyze_api_logs []).summary.error_rate_percentage = 0 ∧
     (analyze_api_logs []).endpoint_stats = [] ∧
     (analyze_api_logs []).anomalies = []) ∧
    ∀ raw : List RawRecord, (∀ e ∈ raw, validate_log_entry e = none) →
      analyze_api_logs raw = analyze_api_logs [] := by
  constructor
  · exact ⟨rfl, rfl, rfl, rfl, rfl, rfl, rfl⟩
  · intro raw h
    have hnil : raw.filterMap validate_log_entry = [] := by
      rw [List.filterMap_eq_nil_iff]
      exact h
    simp only [analyze_api_logs, hnil, List.filterMap_nil]

/-- Witness for C8: a one-record input whose record misses every field
is analyzed exactly like the empty input. -/
theorem degenerate_inputs_yield_zeroed_report_witness :
    analyze_api_logs [emptyRawRecord] = analyze_api_logs [] :=
  degenerate_inputs_yield_zeroed_report.2 [emptyRawRecord] (by decide)

/-! ## C5: validation rejects exactly the malformed records -/

theorem safe_int_eq_none_iff (v : Option ℤ) :
    safe_int v = none ↔ v = none ∨ ∃ iv, v = some iv ∧ iv < 0 := by
  cases v with
  | none => simp [safe_int]
  | some iv =>
    simp only [safe_int]
    split_ifs with h <;> simp_all <;> omega

theorem safe_str_eq_none_iff (v : Option String) :
    safe_str v = none ↔ v = none ∨ v = some "" := by
  cases v with
  | none => simp [safe_str]
  | some s =>
    simp only [safe_str]
    split_ifs with h <;> simp_all

theorem validate_some_fields_eq_none_iff (tsv : Option ℤ) (epv mv : Option String)
    (rtv scv : Option ℤ) (uv : Option String) (reqv respv : Option ℤ) :
    validate_log_entry ⟨some tsv, some epv, some mv, some rtv, some scv,
      some uv, some reqv, some respv⟩ = none ↔
      tsv = none ∨ safe_str epv = none ∨ safe_str mv = none ∨ safe_int rtv = none ∨
      safe_int scv = none ∨ safe_str uv = none ∨ safe_int reqv = none ∨
      safe_int respv = none := by
  simp only [validate_log_entry]
  rcases tsv with _ | ts <;>
  rcases hep : safe_str epv with _ | ep <;>
  rcases hm : safe_str mv with _ | m <;>
  rcases hrt : safe_int rtv with _ | rt <;>
  rcases hsc : safe_int scv with _ | sc <;>
  rcases hu : safe_str uv with _ | u <;>
  rcases hreq : safe_int reqv with _ | rq <;>
  rcases hresp : safe_int respv with _ | rs <;>
  simp_all

/-- C5: `validate_log_entry` returns `none` exactly when some required
field is absent, the timestamp fails parsing, a numeric field fails
coercion or is negative, or a string field is empty or un-coercible;
moreover one bad record (negative response time) plus one good record
yields `total_requests = 1`, and the negative response time is rejected
rather than clamped. -/
theorem validate_rejects_exactly_malformed :
    (∀ e : RawRecord,
      validate_log_entry e = none ↔
        (missingField e ∨ e.timestamp = some none ∨
         numericFieldBad e.response_time_ms ∨ numericFieldBad e.status_code ∨
         numericFieldBad e.request_size_bytes ∨ numericFieldBad e.response_size_bytes ∨
         stringFieldBad e.endpoint ∨ stringFieldBad e.method ∨ stringFieldBad e.user_id)) ∧
    (analyze_api_logs [c5BadRecord, c5GoodRecord]).summary.total_requests = 1 ∧
    validate_log_entry c5BadRecord = none := by
  refine ⟨?_, by decide, by decide⟩
  intro e
  obtain ⟨f1, f2, f3, f4, f5, f6, f7, f8⟩ := e
  cases f1 <;> cases f2 <;> cases f3 <;> cases f4 <;>
    cases f5 <;> cases f6 <;> cases f7 <;> cases f8
  all_goals try (simp [validate_log_entry, missingField]; done)
  rename_i tsv epv mv rtv scv uv reqv respv
  rw [validate_some_fields_eq_none_iff]
  simp only [missingField, numericFieldBad, stringFieldBad,
    safe_int_eq_none_iff, safe_str_eq_none_iff, Option.some.injEq,
    reduceCtorEq, false_or, or_false]
  aesop

/-! ## Sliding-window correctness (C10, C4) -/

/-- Membership of a timestamp in the closed window `[t - W, t]`. -/
def windowPred (t W : ℤ) (x : ℤ) : Bool := decide (t - W ≤ x) && decide (x ≤ t)

theorem getD_eq_get {α : Type} (l : List α) (d : α) :
    ∀ {n : ℕ} (h : n < l.length), l.getD n d = l.get ⟨n, h⟩ := by
  induction l with
  | nil => intro n h; simp at h
  | cons x xs ih =>
    intro n h
    cases n with
    | zero => rfl
    | succ m => simpa [List.getD_cons_succ] using ih (Nat.lt_of_succ_lt_succ h)

theorem get?_eq_some_getD {α : Type} (l : List α) (d : α) {n : ℕ} (h : n < l.length) :
    l.get? n = some (l.getD n d) := by
  induction l generalizing n with
  | nil => simp at h
  | cons x xs ih =>
    cases n with
    | zero => rfl
    | succ m => simpa [List.getD_cons_succ] using ih (Nat.lt_of_succ_lt_succ h)

theorem getD_mem {α : Type} (l : List α) (d : α) {n : ℕ} (h : n < l.length) :
    l.getD n d ∈ l := by
  rw [getD_eq_get l d h]
  exact List.get_mem _ _ _

theorem getD_drop_add {α : Type} (l : List α) (d : α) :
    ∀ (n i : ℕ), (l.drop n).getD i d = l.getD (n + i) d := by
  induction l with
  | nil => intro n i; simp
  | cons x xs ih =>
    intro n i
    cases n with
    | zero => simp
    | succ m =>
      have : m + 1 + i = (m + i) + 1 := by omega
      simp [this, List.getD_cons_succ, ih m i]

theorem sorted_getD_mono (ts : List ℤ) (hs : List.Pairwise (· ≤ ·) ts)
    {i j : ℕ} (hij : i ≤ j) (hj : j < ts.length) : ts.getD i 0 ≤ ts.getD j 0 := by
  rcases Nat.eq_or_lt_of_le hij with rfl | hlt
  · exact le_refl _
  · have hi : i < ts.length := lt_trans hlt hj
    rw [getD_eq_get ts 0 hi, getD_eq_get ts 0 hj]
    exact List.pairwise_iff_get.mp hs ⟨i, hi⟩ ⟨j, hj⟩ hlt

theorem mem_take_imp_getD {α : Type} (l : List α) (d : α) {n : ℕ} {x : α}
    (hx : x ∈ l.take n) : ∃ i, i < n ∧ i < l.length ∧ x = l.getD i d := by
  obtain ⟨⟨i, hi⟩, hget⟩ := List.mem_iff_get.mp hx
  have hlen : i < n ∧ i < l.length := by
    have := hi
    simp [List.length_take] at this
    omega
  refine ⟨i, hlen.1, hlen.2, ?_⟩
  rw [getD_eq_get l d hlen.2]
  rw [← hget]
  exact (List.get_take l hlen.2 hlen.1).symm

theorem countP_take_split (ts : List ℤ) (p : ℤ → Bool) :
    ∀ (n l : ℕ), n ≤ ts.length → l ≤ n →
      (∀ j, j < n → (p (ts.getD j 0) = true ↔ l ≤ j)) →
      (ts.take n).countP p = n - l := by
  intro n
  induction n with
  | zero =>
    intro l _ hl _
    interval_cases l
    simp
  | succ n ih =>
    intro l hn hl hch
    have hnlen : n < ts.length := hn
    have htake : ts.take (n + 1) = ts.take n ++ [ts.getD n 0] := by
      rw [List.take_succ, ← List.get?_eq_getElem?, get?_eq_some_getD ts 0 hnlen]
      rfl
    rw [htake, List.countP_append]
    by_cases hcase : l ≤ n
    · have h1 : (ts.take n).countP p = n - l :=
        ih l (le_of_lt hnlen) hcase (fun j hj => hch j (Nat.lt_succ_of_lt hj))
      have h2 : p (ts.getD n 0) = true := (hch n (Nat.lt_succ_self n)).mpr hcase
      have hone : List.countP p [ts.getD n 0] = 1 := by
        rw [List.countP_cons, h2]
        simp
      rw [h1, hone]
      omega
    · have hleq : l = n + 1 := by omega
      subst hleq
      have h2 : p (ts.getD n 0) = false := by
        have hnt : ¬ p (ts.getD n 0) = true := by
          intro ht
          have := (hch n (Nat.lt_succ_self n)).mp ht
          omega
        simpa using hnt
      have h1 : (ts.take n).countP p = 0 := by
        rw [List.countP_eq_zero]
        intro x hx
        obtain ⟨i, hin, hilen, rfl⟩ := mem_take_imp_getD ts 0 hx
        have h3 := hch i (Nat.lt_succ_of_lt hin)
        intro hcontra
        have := h3.mp hcontra
        omega
      have hzero : List.countP p [ts.getD n 0] = 0 := by
        rw [List.countP_cons, h2]
        simp
      rw [h1, hzero]
      omega

theorem advRun_correct (ws : ℤ) :
    ∀ (suffix : List ℤ) (idx k : ℕ), k < suffix.length → ws ≤ suffix.getD k 0 →
      ∃ m, advRun suffix ws idx = some (idx + m) ∧ m < suffix.length ∧
        ws ≤ suffix.getD m 0 ∧ (∀ j, j < m → suffix.getD j 0 < ws) ∧ m ≤ k := by
  intro suffix
  induction suffix with
  | nil =>
    intro idx k hk _
    simp at hk
  | cons x rest ih =>
    intro idx k hk hws
    by_cases hx : x < ws
    · cases k with
      | zero =>
        simp [List.getD_cons_zero] at hws
        omega
      | succ k' =>
        have hk' : k' < rest.length := by simpa using hk
        have hws' : ws ≤ rest.getD k' 0 := by simpa using hws
        obtain ⟨m, h1, h2, h3, h4, h5⟩ := ih (idx + 1) k' hk' hws'
        refine ⟨m + 1, ?_, by simpa using Nat.succ_lt_succ h2, by simpa using h3, ?_, by omega⟩
        · simp only [advRun, if_pos hx]
          rw [h1]
          congr 1
          omega
        · intro j hj
          cases j with
          | zero => simpa using hx
          | succ j' =>
            have := h4 j' (by omega)
            simpa using this
    · refine ⟨0, ?_, by simp, by simpa using not_lt.mp hx, ?_, by omega⟩
      · simp [advRun, hx]
      · intro j hj
        omega

theorem advanceLeft_correct (ts : List ℤ) (ws : ℤ) (left k : ℕ)
    (hk : k < ts.length) (hl : left ≤ k) (hws : ws ≤ ts.getD k 0) :
    ∃ l, advanceLeft ts ws left = some l ∧ left ≤ l ∧ l ≤ k ∧ l < ts.length ∧
      ws ≤ ts.getD l 0 ∧ ∀ j, left ≤ j → j < l → ts.getD j 0 < ws := by
  have hsub : k - left < (ts.drop left).length := by
    simp [List.length_drop]
    omega
  have hws' : ws ≤ (ts.drop left).getD (k - left) 0 := by
    rw [getD_drop_add]
    have : left + (k - left) = k := by omega
    rw [this]
    exact hws
  obtain ⟨m, h1, h2, h3, h4, h5⟩ := advRun_correct ws (ts.drop left) left (k - left) hsub hws'
  rw [getD_drop_add] at h3
  have hlen : (ts.drop left).length = ts.length - left := by simp [List.length_drop]
  refine ⟨left + m, h1, by omega, by omega, by omega, h3, ?_⟩
  intro j hj1 hj2
  have h6 := h4 (j - left) (by omega)
  rw [getD_drop_add] at h6
  have : left + (j - left) = j := by omega
  rw [this] at h6
  exact h6

theorem swcLoop_total (ts : List ℤ) (W : ℤ) (hW : 0 ≤ W) :
    ∀ (k r left : ℕ), r + k = ts.length → left ≤ r →
      ∃ cs, swcLoop ts W (List.range' r k) left = some cs ∧ cs.length = k := by
  intro k
  induction k with
  | zero =>
    intro r left _ _
    exact ⟨[], rfl, rfl⟩
  | succ k ih =>
    intro r left hrk hl
    have hr : r < ts.length := by omega
    have hws : ts.getD r 0 - W ≤ ts.getD r 0 := by linarith
    obtain ⟨l, ha, hll, hlk, _, _, _⟩ :=
      advanceLeft_correct ts (ts.getD r 0 - W) left r hr hl hws
    obtain ⟨cs, hcs, hlen⟩ := ih (r + 1) l (by omega) (by omega)
    refine ⟨(ts.getD r 0, r - l + 1) :: cs, ?_, by simp [hlen]⟩
    rw [List.range'_succ]
    simp only [swcLoop, get?_eq_some_getD ts 0 hr, ha, hcs, Option.map_some']

theorem swcLoop_sorted_spec (ts : List ℤ) (W : ℤ) (hW : 0 ≤ W)
    (hs : List.Pairwise (· ≤ ·) ts) :
    ∀ (k r left : ℕ), r + k = ts.length → left ≤ r →
      (∀ j, j < left → ∀ i, r ≤ i → i < ts.length →
        ts.getD j 0 < ts.getD i 0 - W) →
      swcLoop ts W (List.range' r k) left =
        some ((List.range' r k).map (fun i =>
          (ts.getD i 0, (ts.take (i + 1)).countP (windowPred (ts.getD i 0) W)))) := by
  intro k
  induction k with
  | zero =>
    intro r left _ _ _
    rfl
  | succ k ih =>
    intro r left hrk hl hinv
    have hr : r < ts.length := by omega
    have hws : ts.getD r 0 - W ≤ ts.getD r 0 := by linarith
    obtain ⟨l, ha, hll, hlr, hllen, hwl, hbetween⟩ :=
      advanceLeft_correct ts (ts.getD r 0 - W) left r hr hl hws
    have hcount : (ts.take (r + 1)).countP (windowPred (ts.getD r 0) W) = (r + 1) - l := by
      apply countP_take_split ts _ (r + 1) l (by omega) (by omega)
      intro j hj
      have hjr : j ≤ r := by omega
      constructor
      · intro hp
        simp only [windowPred, Bool.and_eq_true, decide_eq_true_eq] at hp
        by_contra hjl
        push_neg at hjl
        rcases Nat.lt_or_ge j left with hjleft | hjleft
        · have := hinv j hjleft r (le_refl r) hr
          linarith [hp.1]
        · have := hbetween j hjleft (by omega)
          linarith [hp.1]
      · intro hlj
        have h1 : ts.getD r 0 - W ≤ ts.getD j 0 := by
          have := sorted_getD_mono ts hs hlj (by omega)
          linarith
        have h2 : ts.getD j 0 ≤ ts.getD r 0 := sorted_getD_mono ts hs hjr hr
        simp only [windowPred, Bool.and_eq_true, decide_eq_true_eq]
        exact ⟨h1, h2⟩
    have hinv2 : ∀ j, j < l → ∀ i, r + 1 ≤ i → i < ts.length →
        ts.getD j 0 < ts.getD i 0 - W := by
      intro j hj i hi hilen
      rcases Nat.lt_or_ge j left with hjleft | hjleft
      · exact hinv j hjleft i (by omega) hilen
      · have h1 := hbetween j hjleft hj
        have h2 : ts.getD r 0 ≤ ts.getD i 0 := sorted_getD_mono ts hs (by omega) hilen
        linarith
    have hrec := ih (r + 1) l (by omega) (by omega) hinv2
    rw [List.range'_succ]
    simp only [swcLoop, get?_eq_some_getD ts 0 hr, ha, hrec, Option.map_some', List.map_cons]
    have : r - l + 1 = (r + 1) - l := by omega
    rw [hcount, this]

/-- Totality of the two-pointer scan: the left pointer never overtakes
the right edge, so no index access can fail. -/
theorem sliding_window_counts_total (ts : List ℤ) (w : ℕ) :
    ∃ cs, sliding_window_counts ts w = some cs ∧ cs.length = ts.length := by
  have hW : (0:ℤ) ≤ timedelta_minutes w := by
    simp [timedelta_minutes]
  cases ts with
  | nil => exact ⟨[], rfl, rfl⟩
  | cons x rest =>
    have := swcLoop_total (x :: rest) (timedelta_minutes w) hW (x :: rest).length 0 0
      (by omega) (by omega)
    simpa [sliding_window_counts, List.range_eq_range'] using this

/-- The counts of the two-pointer scan on a sorted list: the entry for
position `r` pairs `ts[r]` with the number of positions `j ≤ r` whose
timestamp lies in the closed window `[ts[r] - 60*w, ts[r]]`. -/
theorem sliding_window_counts_sorted_spec (ts : List ℤ) (w : ℕ)
    (hs : List.Pairwise (· ≤ ·) ts) :
    sliding_window_counts ts w =
      some ((List.range' 0 ts.length).map (fun i =>
        (ts.getD i 0, (ts.take (i + 1)).countP
          (windowPred (ts.getD i 0) (timedelta_minutes w))))) := by
  have hW : (0:ℤ) ≤ timedelta_minutes w := by
    simp [timedelta_minutes]
  have := swcLoop_sorted_spec ts (timedelta_minutes w) hW hs ts.length 0 0
    (by omega) (by omega) (by intro j hj; omega)
  simpa [sliding_window_counts, List.range_eq_range'] using this

theorem getD_map_range' {α : Type} (n : ℕ) (f : ℕ → α) (d : α) {r : ℕ} (hr : r < n) :
    ((List.range' 0 n).map f).getD r d = f r := by
  have hlen : r < ((List.range' 0 n).map f).length := by simp [hr]
  rw [getD_eq_get _ _ hlen, List.get_map]
  congr 1
  simp

/-- C10 (amended): the scan is total — the left pointer never overtakes
the right edge, so no index access can fail and the output has one
entry per timestamp — and on an ascending-sorted list the count paired
with the entry at position `r` is the number of positions `j ≤ r` whose
timestamp lies in the closed interval `[ts[r] - w, ts[r]]` (for strictly
ascending lists this is exactly the number of timestamps in that
interval; with duplicates, later equal timestamps are not counted). -/
theorem sliding_window_counts_safe_and_window_exact :
    (∀ (ts : List ℤ) (w : ℕ), ∃ cs, sliding_window_counts ts w = some cs ∧
      cs.length = ts.length) ∧
    (∀ (ts : List ℤ) (w : ℕ) (r : ℕ), List.Pairwise (· ≤ ·) ts → r < ts.length →
      ∃ cs, sliding_window_counts ts w = some cs ∧
        cs.getD r (0, 0) = (ts.getD r 0,
          (ts.take (r + 1)).countP (windowPred (ts.getD r 0) (timedelta_minutes w)))) := by
  constructor
  · intro ts w
    exact sliding_window_counts_total ts w
  · intro ts w r hs hr
    refine ⟨_, sliding_window_counts_sorted_spec ts w hs, ?_⟩
    exact getD_map_range' ts.length _ (0, 0) hr

/-- C10 counterexample: on the list `[0, 0]` the first entry of the scan
carries count 1, yet two timestamps lie in its closed window
`[t - w, t]`, so the count is not the number of timestamps in the
interval as soon as duplicates occur. -/
theorem sliding_window_count_not_interval_count_cex :
    sliding_window_counts [0, 0] 5 = some [(0, 1), (0, 2)] ∧
    ((0:ℤ), (1:ℕ)) ∈ [((0:ℤ), (1:ℕ)), (0, 2)] ∧
    ([(0:ℤ), 0].countP (windowPred 0 (timedelta_minutes 5))) = 2 ∧
    (1:ℕ) ≠ 2 :=
  ⟨by decide, by decide, by decide, by decide⟩

/-- Witness for C10 at the sorted list `[0, 100, 400]`, window 5 minutes,
position 2. -/
theorem sliding_window_counts_safe_and_window_exact_witness :
    List.Pairwise (· ≤ ·) [(0:ℤ), 100, 400] ∧ (2:ℕ) < 3 ∧
    sliding_window_counts [0, 100, 400] 5 = some [(0, 1), (100, 2), (400, 2)] ∧
    [((0:ℤ), (1:ℕ)), (100, 2), (400, 2)].getD 2 (0, 0) =
      (400, ([(0:ℤ), 100, 400].take 3).countP (windowPred 400 (timedelta_minutes 5))) := by
  obtain ⟨cs, hcs, hentry⟩ :=
    sliding_window_counts_safe_and_window_exact.2 [0, 100, 400] 5 2 (by decide) (by decide)
  have hswc : sliding_window_counts [0, 100, 400] 5 = some [(0, 1), (100, 2), (400, 2)] := by
    decide
  rw [hswc] at hcs
  have hcs' : cs = [((0:ℤ), (1:ℕ)), (100, 2), (400, 2)] := by
    injection hcs with h
    exact h.symm
  subst hcs'
  refine ⟨by decide, by decide, hswc, ?_⟩
  rw [hentry]
  decide

/-! ## Sorting and grouping lemmas (C1–C4) -/

theorem insertLe_perm {α : Type} (le : α → α → Bool) (x : α) (l : List α) :
    List.Perm (insertLe le x l) (x :: l) := by
  induction l with
  | nil => exact List.Perm.refl _
  | cons y ys ih =>
    by_cases h : le x y
    · simp only [insertLe, if_pos h]
      exact List.Perm.refl _
    · simp only [insertLe, if_neg h]
      exact (List.Perm.cons y ih).trans (List.Perm.swap x y ys)

theorem sortLe_perm {α : Type} (le : α → α → Bool) (l : List α) :
    List.Perm (sortLe le l) l := by
  induction l with
  | nil => exact List.Perm.refl _
  | cons x xs ih =>
    exact (insertLe_perm le x (sortLe le xs)).trans (List.Perm.cons x ih)

theorem insertLe_int_sorted (x : ℤ) (l : List ℤ)
    (hl : List.Pairwise (· ≤ ·) l) :
    List.Pairwise (· ≤ ·) (insertLe (fun a b => decide (a ≤ b)) x l) := by
  induction l with
  | nil => simp [insertLe]
  | cons y ys ih =>
    by_cases h : x ≤ y
    · simp only [insertLe, decide_eq_true_eq, if_pos h]
      refine List.Pairwise.cons ?_ hl
      intro b hb
      rcases List.mem_cons.mp hb with rfl | hb2
      · exact h
      · exact le_trans h (List.rel_of_pairwise_cons hl hb2)
    · simp only [insertLe, decide_eq_true_eq, if_neg h]
      have hyx : y ≤ x := le_of_not_le h
      refine List.Pairwise.cons ?_ (ih (List.Pairwise.of_cons hl))
      intro b hb
      have hb2 : b ∈ x :: ys :=
        (insertLe_perm (fun a b => decide (a ≤ b)) x ys).mem_iff.mp hb
      rcases List.mem_cons.mp hb2 with rfl | hb3
      · exact hyx
      · exact List.rel_of_pairwise_cons hl hb3

theorem sortLe_int_sorted (l : List ℤ) :
    List.Pairwise (· ≤ ·) (sortLe (fun a b => decide (a ≤ b)) l) := by
  induction l with
  | nil => simp [sortLe]
  | cons x xs ih => exact insertLe_int_sorted x _ ih

theorem epTimestampsSorted_sorted (logs : List LogEntry) (ep : String) :
    List.Pairwise (· ≤ ·) (epTimestampsSorted logs ep) :=
  sortLe_int_sorted _

theorem mem_firstOccs {α : Type} [DecidableEq α] (l : List α) (x : α) :
    x ∈ firstOccs l ↔ x ∈ l := by
  induction l with
  | nil => simp [firstOccs]
  | cons y ys ih =>
    simp only [firstOccs, List.mem_cons, List.mem_filter, decide_eq_true_eq]
    constructor
    · rintro (rfl | ⟨hx, _⟩)
      · exact Or.inl rfl
      · exact Or.inr (ih.mp hx)
    · rintro (rfl | hx)
      · exact Or.inl rfl
      · by_cases hxy : x = y
        · exact Or.inl hxy
        · exact Or.inr ⟨ih.mpr hx, hxy⟩

theorem nodup_firstOccs {α : Type} [DecidableEq α] (l : List α) :
    (firstOccs l).Nodup := by
  induction l with
  | nil => simp [firstOccs]
  | cons y ys ih =>
    rw [firstOccs, List.nodup_cons]
    constructor
    · intro hmem
      have := (List.mem_filter.mp hmem).2
      simp at this
    · exact List.Nodup.filter _ ih

theorem find?_eq_of_first_index {α : Type} (l : List α) (p : α → Bool) (d : α) :
    ∀ (n : ℕ), n < l.length → (∀ i, i < n → p (l.getD i d) = false) →
      p (l.getD n d) = true → l.find? p = some (l.getD n d) := by
  induction l with
  | nil =>
    intro n hn
    simp at hn
  | cons x xs ih =>
    intro n hn hbefore hp
    cases n with
    | zero =>
      rw [List.find?_cons_of_pos]
      · rfl
      · exact hp
    | succ m =>
      have hx : p x = false := hbefore 0 (Nat.succ_pos m)
      rw [List.find?_cons_of_neg _ (by simp [hx])]
      exact ih m (by simpa using hn) (fun i hi => hbefore (i + 1) (by omega)) hp

/-! ## Shape of the anomalies produced by each heuristic -/

theorem requestSpikeFor_shape (logs : List LogEntry) (e : String) (a : Anomaly)
    (h : requestSpikeFor logs e = some a) :
    ∃ t nr ar sv, a = Anomaly.request_spike e t nr ar sv := by
  rw [requestSpikeFor] at h
  rcases hswc : sliding_window_counts (epTimestampsSorted logs e)
      REQUEST_SPIKE_WINDOW_MINUTES with _ | counts
  · rw [hswc] at h
    simp at h
  · rw [hswc] at h
    simp only [Option.map_eq_some'] at h
    obtain ⟨tc, _, rfl⟩ := h
    exact ⟨_, _, _, _, rfl⟩

theorem degradationFor_shape (logs : List LogEntry) (e : String) (a : Anomaly)
    (h : degradationFor logs e = some a) :
    ∃ r o sv, a = Anomaly.response_time_degradation e r o sv := by
  rw [degradationFor] at h
  split at h
  · exact absurd h (by simp)
  · dsimp only at h
    split at h
    · simp only [Option.some.injEq] at h
      exact ⟨_, _, _, h.symm⟩
    · exact absurd h (by simp)

theorem errorClusterFor_shape (logs : List LogEntry) (e : String) (a : Anomaly)
    (h : errorClusterFor logs e = some a) :
    ∃ tw c sv, a = Anomaly.error_cluster e tw c sv := by
  rw [errorClusterFor] at h
  rcases hswc : sliding_window_counts
      (sortLe (fun a b => decide (a ≤ b)) (errTimestamps logs e))
      ERROR_CLUSTER_WINDOW_MINUTES with _ | counts
  · rw [hswc] at h
    simp at h
  · rw [hswc] at h
    simp only [Option.map_eq_some'] at h
    obtain ⟨tc, _, rfl⟩ := h
    exact ⟨_, _, _, rfl⟩

theorem unusualUserAnomalies_shape (logs : List LogEntry) (a : Anomaly)
    (h : a ∈ unusualUserAnomalies logs) :
    ∃ u p sv, a = Anomaly.unusual_user_behavior u p sv := by
  rw [unusualUserAnomalies] at h
  rcases hmc : mostCommonPair (userCounts logs) with _ | uc
  · rw [hmc] at h
    simp at h
  · rw [hmc] at h
    dsimp only at h
    split at h
    · simp only [List.mem_singleton] at h
      exact ⟨_, _, _, h⟩
    · simp at h

/-! ## Filtering the assembled anomaly list -/

theorem filter_filterMap_of_false (eps : List String) (f : String → Option Anomaly)
    (q : Anomaly → Bool) (hq : ∀ e ∈ eps, ∀ a, f e = some a → q a = false) :
    (eps.filterMap f).filter q = [] := by
  rw [List.filter_eq_nil_iff]
  intro a ha
  obtain ⟨e, hmem, hfe⟩ := List.mem_filterMap.mp ha
  simp [hq e hmem a hfe]

theorem filter_filterMap_cluster_key (ep : String) (f : String → Option Anomaly)
    (hcl : ∀ e a, f e = some a → ∀ q, isErrorClusterFor q a = (e == q)) :
    ∀ (eps : List String), eps.Nodup → ep ∈ eps →
      (eps.filterMap f).filter (isErrorClusterFor ep) = (f ep).toList := by
  intro eps
  induction eps with
  | nil =>
    intro _ hmem
    simp at hmem
  | cons e rest ih =>
    intro hnd hmem
    rw [List.filterMap_cons]
    by_cases hcase : e = ep
    · subst hcase
      have hnotin : e ∉ rest := (List.nodup_cons.mp hnd).1
      have hrest : (rest.filterMap f).filter (isErrorClusterFor e) = [] := by
        apply filter_filterMap_of_false
        intro e2 hmem2 a hfe
        rw [hcl e2 a hfe e]
        simp only [beq_eq_false_iff_ne, ne_eq]
        intro heq
        exact hnotin (heq ▸ hmem2)
      cases hfe : f e with
      | none => simpa [hfe] using hrest
      | some a =>
        have hkeep : isErrorClusterFor e a = true := by
          rw [hcl e a hfe e]
          simp
        simp [hfe, List.filter_cons, hkeep, hrest]
    · have hep : ep ∈ rest := by
        rcases List.mem_cons.mp hmem with heq | hmem2
        · exact absurd heq.symm hcase
        · exact hmem2
      have htail := ih (List.nodup_cons.mp hnd).2 hep
      cases hfe : f e with
      | none => simpa [hfe] using htail
      | some a =>
        have hdrop : isErrorClusterFor ep a = false := by
          rw [hcl e a hfe ep]
          simp only [beq_eq_false_iff_ne, ne_eq]
          exact hcase
        simp [hfe, List.filter_cons, hdrop, htail]

/-! ## C4: error clusters -/

theorem mem_imp_getD {α : Type} (l : List α) (d : α) {x : α} (hx : x ∈ l) :
    ∃ i, i < l.length ∧ x = l.getD i d := by
  obtain ⟨⟨i, hi⟩, hget⟩ := List.mem_iff_get.mp hx
  exact ⟨i, hi, by rw [getD_eq_get l d hi, hget]⟩

theorem cluster_scan_ten (ts : List ℤ) (hsorted : List.Pairwise (· ≤ ·) ts)
    (hlen : ts.length = 10) (hspan : ∀ a ∈ ts, ∀ b ∈ ts, a - b ≤ 300) :
    ∃ cs, sliding_window_counts ts ERROR_CLUSTER_WINDOW_MINUTES = some cs ∧
      cs.find? (fun tc => decide (ERROR_CLUSTER_THRESHOLD ≤ tc.2)) =
        some (ts.getD 9 0, 10) := by
  have hW : timedelta_minutes ERROR_CLUSTER_WINDOW_MINUTES = 300 := by decide
  have hspec := sliding_window_counts_sorted_spec ts ERROR_CLUSTER_WINDOW_MINUTES hsorted
  rw [hlen, hW] at hspec
  have hmem9 : ts.getD 9 0 ∈ ts := getD_mem ts 0 (by omega)
  have hcount9 : (ts.take 10).countP (windowPred (ts.getD 9 0) 300) = 10 := by
    have htake : ts.take 10 = ts := by
      rw [← hlen]
      exact List.take_length ts
    rw [htake]
    have hall : ∀ x ∈ ts, windowPred (ts.getD 9 0) 300 x = true := by
      intro x hx
      obtain ⟨i, hi, rfl⟩ := mem_imp_getD ts 0 hx
      have hup : ts.getD i 0 ≤ ts.getD 9 0 :=
        sorted_getD_mono ts hsorted (by omega) (by omega)
      have hlow : ts.getD 9 0 - ts.getD i 0 ≤ 300 := hspan _ hmem9 _ hx
      simp only [windowPred, Bool.and_eq_true, decide_eq_true_eq]
      omega
    have h2 := List.countP_eq_length.mpr hall
    rw [h2, hlen]
  refine ⟨_, hspec, ?_⟩
  have hgetD : ∀ i, i < 10 →
      ((List.range' 0 10).map (fun i => (ts.getD i 0,
        (ts.take (i + 1)).countP (windowPred (ts.getD i 0) 300)))).getD i (0, 0) =
      (ts.getD i 0, (ts.take (i + 1)).countP (windowPred (ts.getD i 0) 300)) :=
    fun i hi => getD_map_range' 10 _ (0, 0) hi
  have hfind := find?_eq_of_first_index
    ((List.range' 0 10).map (fun i => (ts.getD i 0,
      (ts.take (i + 1)).countP (windowPred (ts.getD i 0) 300))))
    (fun tc => decide (ERROR_CLUSTER_THRESHOLD ≤ tc.2)) (0, 0) 9
    (by simp) ?_ ?_
  · rw [hfind, hgetD 9 (by omega), hcount9]
  · intro i hi
    rw [hgetD i (by omega)]
    simp only [ERROR_CLUSTER_THRESHOLD, decide_eq_false_iff_not, not_le]
    have hb : (ts.take (i + 1)).countP (windowPred (ts.getD i 0) 300) ≤ i + 1 := by
      have h1 := List.countP_le_length
        (l := ts.take (i + 1)) (p := windowPred (ts.getD i 0) 300)
      have h2 : (ts.take (i + 1)).length ≤ i + 1 := by
        rw [List.length_take]
        omega
      omega
    omega
  · rw [hgetD 9 (by omega), hcount9]
    simp [ERROR_CLUSTER_THRESHOLD]

theorem errorClusterFor_of_ten_errors (logs : List LogEntry) (ep : String)
    (hlen : (errTimestamps logs ep).length = 10)
    (hspan : ∀ a ∈ errTimestamps logs ep, ∀ b ∈ errTimestamps logs ep, a - b ≤ 300) :
    ∃ tw, errorClusterFor logs ep = some (Anomaly.error_cluster ep tw 10 "high") := by
  have hsorted := sortLe_int_sorted (errTimestamps logs ep)
  have hperm := sortLe_perm (fun a b => decide (a ≤ b)) (errTimestamps logs ep)
  have hlen' : (sortLe (fun a b => decide (a ≤ b)) (errTimestamps logs ep)).length = 10 := by
    rw [hperm.length_eq]
    exact hlen
  have hspan' : ∀ a ∈ sortLe (fun a b => decide (a ≤ b)) (errTimestamps logs ep),
      ∀ b ∈ sortLe (fun a b => decide (a ≤ b)) (errTimestamps logs ep), a - b ≤ 300 :=
    fun a ha b hb => hspan a (hperm.subset ha) b (hperm.subset hb)
  obtain ⟨cs, hswc, hfind⟩ := cluster_scan_ten _ hsorted hlen' hspan'
  simp only [errorClusterFor]
  rw [hswc]
  simp only [hfind, Option.map_some']
  have hsev : (if ERROR_CLUSTER_THRESHOLD * 2 ≤ (10:ℕ) then "critical" else "high") = "high" := by
    norm_num [ERROR_CLUSTER_THRESHOLD]
  rw [hsev]
  exact ⟨_, rfl⟩

/-- C4: if an endpoint receives exactly 10 valid error-status requests
whose timestamps all lie within a 5-minute (300-second) span,
`analyze_api_logs` emits exactly one error_cluster anomaly for that
endpoint, with `error_count = 10` and severity "high" (the 2×-threshold
"critical" grade is not reached); scanning stops at the first
qualifying window. -/
theorem error_cluster_for_ten_errors_in_span (raw : List RawRecord) (ep : String)
    (hlen : (errTimestamps (raw.filterMap validate_log_entry) ep).length = 10)
    (hspan : ∀ a ∈ errTimestamps (raw.filterMap validate_log_entry) ep,
      ∀ b ∈ errTimestamps (raw.filterMap validate_log_entry) ep, a - b ≤ 300) :
    ∃ tw, (analyze_api_logs raw).anomalies.filter (isErrorClusterFor ep) =
      [Anomaly.error_cluster ep tw 10 "high"] := by
  obtain ⟨tw, hclu⟩ := errorClusterFor_of_ten_errors (raw.filterMap validate_log_entry) ep hlen hspan
  refine ⟨tw, ?_⟩
  have hanom : (analyze_api_logs raw).anomalies =
      _anomalies (raw.filterMap validate_log_entry) := rfl
  rw [hanom]
  have hne : (raw.filterMap validate_log_entry).filter
      (fun l => l.endpoint == ep && is_error_status l.status_code) ≠ [] := by
    intro hnil
    rw [errTimestamps, hnil] at hlen
    simp at hlen
  obtain ⟨l0, hl0⟩ := List.exists_mem_of_ne_nil _ hne
  have hl0' := List.mem_filter.mp hl0
  have hl0ep : l0.endpoint = ep ∧ is_error_status l0.status_code = true := by
    have := hl0'.2
    simp only [Bool.and_eq_true, beq_iff_eq] at this
    exact this
  have hlogsne : (raw.filterMap validate_log_entry).isEmpty = false := by
    cases h : raw.filterMap validate_log_entry with
    | nil => exact absurd (h ▸ hl0'.1) (List.not_mem_nil l0)
    | cons a as => rfl
  rw [_anomalies, if_neg (by simp [hlogsne])]
  rw [List.filter_append, List.filter_append, List.filter_append]
  have hsp : ((firstOccs ((raw.filterMap validate_log_entry).map (fun l => l.endpoint))).filterMap
      (requestSpikeFor (raw.filterMap validate_log_entry))).filter (isErrorClusterFor ep) = [] := by
    apply filter_filterMap_of_false
    intro e _ a ha
    obtain ⟨t, nr, ar, sv, rfl⟩ := requestSpikeFor_shape _ e a ha
    rfl
  have hdeg : ((firstOccs ((raw.filterMap validate_log_entry).map (fun l => l.endpoint))).filterMap
      (degradationFor (raw.filterMap validate_log_entry))).filter (isErrorClusterFor ep) = [] := by
    apply filter_filterMap_of_false
    intro e _ a ha
    obtain ⟨r, o, sv, rfl⟩ := degradationFor_shape _ e a ha
    rfl
  have huu : (unusualUserAnomalies (raw.filterMap validate_log_entry)).filter
      (isErrorClusterFor ep) = [] := by
    rw [List.filter_eq_nil_iff]
    intro a ha
    obtain ⟨u, p, sv, rfl⟩ := unusualUserAnomalies_shape _ a ha
    simp [isErrorClusterFor]
  have hmemep : ep ∈ firstOccs (((raw.filterMap validate_log_entry).filter
      (fun l => is_error_status l.status_code)).map (fun l => l.endpoint)) := by
    rw [mem_firstOccs]
    exact List.mem_map.mpr ⟨l0, List.mem_filter.mpr ⟨hl0'.1, hl0ep.2⟩, hl0ep.1⟩
  have hcls : ((firstOccs (((raw.filterMap validate_log_entry).filter
      (fun l => is_error_status l.status_code)).map (fun l => l.endpoint))).filterMap
      (errorClusterFor (raw.filterMap validate_log_entry))).filter (isErrorClusterFor ep) =
      (errorClusterFor (raw.filterMap validate_log_entry) ep).toList := by
    apply filter_filterMap_cluster_key ep _ ?_ _ (nodup_firstOccs _) hmemep
    intro e a ha q
    obtain ⟨tw2, c2, sv2, rfl⟩ := errorClusterFor_shape _ e a ha
    rfl
  rw [hsp, hdeg, huu, hcls, hclu]
  rfl

/-- Witness for C4: ten error requests at 30-second spacing. -/
theorem error_cluster_for_ten_errors_in_span_witness :
    ∃ tw, (analyze_api_logs c4Raw).anomalies.filter (isErrorClusterFor "/e") =
      [Anomaly.error_cluster "/e" tw 10 "high"] :=
  error_cluster_for_ten_errors_in_span c4Raw "/e" (by decide) (by decide)

/-! ## C1: the burst scenario does not trip the spike detector -/

/-- C1 counterexample: for 20 one-per-minute requests followed by 15
requests within the next minute, `analyze_api_logs` emits NO
request_spike anomaly, contrary to the claim. -/
theorem request_spike_burst_scenario_cex :
    (analyze_api_logs c1Raw).anomalies.filter isRequestSpike = [] := by
  with_unfolding_all decide

/-- C1 (amended): in the burst scenario the normal rate is computed from
the endpoint's total including the burst — 35 requests over 20 whole
minutes give 35 / (20/5) = 8.75 — so the spike threshold
3.0 × 8.75 = 26.25 exceeds every 5-minute window count (the largest is
19), the per-endpoint scan returns no spike, and no request_spike
anomaly is emitted for the scenario. -/
theorem request_spike_threshold_includes_burst :
    normalRateOf c1Logs "/api/users" = 35/4 ∧
    (19:ℚ) < REQUEST_SPIKE_MULTIPLIER * normalRateOf c1Logs "/api/users" ∧
    ((sliding_window_counts (epTimestampsSorted c1Logs "/api/users")
        REQUEST_SPIKE_WINDOW_MINUTES).getD []).all (fun tc => decide (tc.2 ≤ 19)) = true ∧
    requestSpikeFor c1Logs "/api/users" = none ∧
    (analyze_api_logs c1Raw).anomalies.filter isRequestSpike = [] := by
  refine ⟨(ratEqb_iff _ _).1 (by with_unfolding_all rfl), ?_, ?_, ?_, ?_⟩
  · with_unfolding_all decide
  · with_unfolding_all decide
  · with_unfolding_all decide
  · with_unfolding_all decide

/-! ## C3: unusual user share -/

theorem foldl_mostCommon_some {α : Type} :
    ∀ (l : List (α × ℕ)) (b : α × ℕ), ∃ r,
      l.foldl (fun best kv =>
        match best with
        | none => some kv
        | some b => if b.2 < kv.2 then some kv else some b) (some b) = some r := by
  intro l
  induction l with
  | nil => exact fun b => ⟨b, rfl⟩
  | cons kv rest ih =>
    intro b
    simp only [List.foldl_cons]
    by_cases h : b.2 < kv.2 <;> simp only [if_pos, if_neg, h] <;> first
      | exact ih kv
      | exact ih b

theorem mostCommonPair_isSome {α : Type} (c : List (α × ℕ)) (hne : c ≠ []) :
    ∃ uc, mostCommonPair c = some uc := by
  cases c with
  | nil => exact absurd rfl hne
  | cons kv rest =>
    rw [mostCommonPair, List.foldl_cons]
    exact foldl_mostCommon_some rest kv

theorem userCounts_ne_nil (logs : List LogEntry) (hne : logs ≠ []) :
    userCounts logs ≠ [] := by
  cases logs with
  | nil => exact absurd rfl hne
  | cons l rest =>
    rw [userCounts]
    simp [firstOccs]

theorem anomalies_filter_unusual (logs : List LogEntry) (hne : logs ≠ []) :
    (_anomalies logs).filter isUnusualUser = unusualUserAnomalies logs := by
  have hlogsne : logs.isEmpty = false := by
    cases logs with
    | nil => exact absurd rfl hne
    | cons a as => rfl
  rw [_anomalies, if_neg (by simp [hlogsne])]
  rw [List.filter_append, List.filter_append, List.filter_append]
  have h1 : ((firstOccs (logs.map (fun l => l.endpoint))).filterMap
      (requestSpikeFor logs)).filter isUnusualUser = [] := by
    apply filter_filterMap_of_false
    intro e _ a ha
    obtain ⟨t, nr, ar, sv, rfl⟩ := requestSpikeFor_shape _ e a ha
    rfl
  have h2 : ((firstOccs (logs.map (fun l => l.endpoint))).filterMap
      (degradationFor logs)).filter isUnusualUser = [] := by
    apply filter_filterMap_of_false
    intro e _ a ha
    obtain ⟨r, o, sv, rfl⟩ := degradationFor_shape _ e a ha
    rfl
  have h3 : ((firstOccs ((logs.filter (fun l => is_error_status l.status_code)).map
      (fun l => l.endpoint))).filterMap (errorClusterFor logs)).filter isUnusualUser = [] := by
    apply filter_filterMap_of_false
    intro e _ a ha
    obtain ⟨tw, c, sv, rfl⟩ := errorClusterFor_shape _ e a ha
    rfl
  have h4 : (unusualUserAnomalies logs).filter isUnusualUser = unusualUserAnomalies logs := by
    rw [List.filter_eq_self]
    intro a ha
    obtain ⟨u, p, sv, rfl⟩ := unusualUserAnomalies_shape _ a ha
    rfl
  rw [h1, h2, h3, h4]
  rfl

theorem unusualUserAnomalies_eq (logs : List LogEntry) (hne : logs ≠ []) :
    ∃ uid cnt, mostCommonPair (userCounts logs) = some (uid, cnt) ∧
      unusualUserAnomalies logs =
        (if (1:ℚ)/2 < (cnt : ℚ) / (logs.length : ℚ) then
          [Anomaly.unusual_user_behavior uid
            (roundDec 3 ((cnt : ℚ) / (logs.length : ℚ) * 100))
            (if (7:ℚ)/10 < (cnt : ℚ) / (logs.length : ℚ) then "high" else "medium")]
        else []) := by
  obtain ⟨⟨uid, cnt⟩, hmc⟩ := mostCommonPair_isSome _ (userCounts_ne_nil logs hne)
  refine ⟨uid, cnt, hmc, ?_⟩
  simp only [unusualUserAnomalies, hmc, UNUSUAL_USER_SHARE_THRESHOLD]

/-- C3: `analyze_api_logs` reports at most one unusual_user_behavior
anomaly: exactly one is emitted iff the most-frequent user's share of
all valid requests strictly exceeds 1/2, with severity "high" iff the
share strictly exceeds 7/10 and "medium" otherwise; in the 60-versus-39
single-request-users scenario (99 requests) exactly one anomaly is
emitted with share_percentage 60.606 and severity "medium". -/
theorem unusual_user_share_rule :
    (∀ raw : List RawRecord, raw.filterMap validate_log_entry ≠ [] →
      ∃ uid cnt,
        mostCommonPair (userCounts (raw.filterMap validate_log_entry)) = some (uid, cnt) ∧
        (analyze_api_logs raw).anomalies.filter isUnusualUser =
          (if (1:ℚ)/2 < (cnt : ℚ) / ((raw.filterMap validate_log_entry).length : ℚ) then
            [Anomaly.unusual_user_behavior uid
              (roundDec 3 ((cnt : ℚ) / ((raw.filterMap validate_log_entry).length : ℚ) * 100))
              (if (7:ℚ)/10 < (cnt : ℚ) / ((raw.filterMap validate_log_entry).length : ℚ)
               then "high" else "medium")]
          else []) ∧
        ((analyze_api_logs raw).anomalies.filter isUnusualUser).length ≤ 1 ∧
        ((analyze_api_logs raw).anomalies.filter isUnusualUser ≠ [] ↔
          (1:ℚ)/2 < (cnt : ℚ) / ((raw.filterMap validate_log_entry).length : ℚ))) ∧
    (analyze_api_logs c3Raw).anomalies.filter isUnusualUser =
      [Anomaly.unusual_user_behavior "u0" (60606/1000) "medium"] := by
  constructor
  · intro raw hne
    obtain ⟨uid, cnt, hmc, heq⟩ := unusualUserAnomalies_eq (raw.filterMap validate_log_entry) hne
    have hfil : (analyze_api_logs raw).anomalies.filter isUnusualUser =
        unusualUserAnomalies (raw.filterMap validate_log_entry) :=
      anomalies_filter_unusual (raw.filterMap validate_log_entry) hne
    refine ⟨uid, cnt, hmc, ?_, ?_, ?_⟩
    · rw [hfil, heq]
    · rw [hfil, heq]
      split_ifs <;> simp
    · rw [hfil, heq]
      split_ifs with ha hb
      · exact iff_of_true (by simp) ha
      · exact iff_of_true (by simp) ha
      · exact iff_of_false (by simp) ha
  · exact (anomListEqb_iff _ _).1 (by with_unfolding_all rfl)

/-- Witness for C3 at the 60-versus-39 scenario. -/
theorem unusual_user_share_rule_witness :
    ((analyze_api_logs c3Raw).anomalies.filter isUnusualUser).length ≤ 1 := by
  obtain ⟨uid, cnt, hmc, heq, hlen, hiff⟩ :=
    unusual_user_share_rule.1 c3Raw (by with_unfolding_all decide)
  exact hlen

/-! ## C2: permutation invariance -/

theorem min?_perm (l1 l2 : List ℤ) (h : l1.Perm l2) : l1.min? = l2.min? := by
  cases hm : l1.min? with
  | none =>
    have h1 : l1 = [] := by
      cases l1 with
      | nil => rfl
      | cons x xs => simp [List.min?] at hm
    subst h1
    have h2 : l2 = [] := h.symm.eq_nil
    subst h2
    rfl
  | some m =>
    have hanti : Std.Antisymm (fun (x1 x2 : ℤ) => x1 ≤ x2) :=
      ⟨fun h1 h2 => le_antisymm h1 h2⟩
    have hiff1 := @List.min?_eq_some_iff ℤ m _ _ hanti (fun a => le_refl a)
      (fun a b => min_choice a b) (fun a b c => le_min_iff) l1
    have hiff2 := @List.min?_eq_some_iff ℤ m _ _ hanti (fun a => le_refl a)
      (fun a b => min_choice a b) (fun a b c => le_min_iff) l2
    obtain ⟨hmem, hle⟩ := hiff1.mp hm
    rw [hiff2.mpr ⟨h.subset hmem, fun b hb => hle b (h.symm.subset hb)⟩]

theorem max?_perm (l1 l2 : List ℤ) (h : l1.Perm l2) : l1.max? = l2.max? := by
  cases hm : l1.max? with
  | none =>
    have h1 : l1 = [] := by
      cases l1 with
      | nil => rfl
      | cons x xs => simp [List.max?] at hm
    subst h1
    have h2 : l2 = [] := h.symm.eq_nil
    subst h2
    rfl
  | some m =>
    have hanti : Std.Antisymm (fun (x1 x2 : ℤ) => x1 ≤ x2) :=
      ⟨fun h1 h2 => le_antisymm h1 h2⟩
    have hiff1 := @List.max?_eq_some_iff ℤ m _ _ hanti (fun a => le_refl a)
      (fun a b => max_choice a b) (fun a b c => max_le_iff) l1
    have hiff2 := @List.max?_eq_some_iff ℤ m _ _ hanti (fun a => le_refl a)
      (fun a b => max_choice a b) (fun a b c => max_le_iff) l2
    obtain ⟨hmem, hle⟩ := hiff1.mp hm
    rw [hiff2.mpr ⟨h.subset hmem, fun b hb => hle b (h.symm.subset hb)⟩]

theorem calc_summary_perm (l1 l2 : List LogEntry) (h : l1.Perm l2) :
    _calc_summary l1 = _calc_summary l2 := by
  have hlen := h.length_eq
  rw [_calc_summary, _calc_summary]
  by_cases hnil : l1.length = 0
  · rw [if_pos hnil, if_pos (by omega)]
  · rw [if_neg hnil, if_neg (by omega)]
    dsimp only
    have hts : (l1.map (fun l => l.timestamp)).Perm (l2.map (fun l => l.timestamp)) :=
      h.map _
    have hsum : (l1.map (fun l => (l.response_time_ms : ℚ))).sum =
        (l2.map (fun l => (l.response_time_ms : ℚ))).sum := (h.map _).sum_eq
    have hcnt : l1.countP (fun l => is_error_status l.status_code) =
        l2.countP (fun l => is_error_status l.status_code) := h.countP_eq _
    rw [hlen, min?_perm _ _ hts, max?_perm _ _ hts, hsum, hcnt]

theorem epTimestampsSorted_perm_eq (l1 l2 : List LogEntry) (h : l1.Perm l2) (ep : String) :
    epTimestampsSorted l1 ep = epTimestampsSorted l2 ep := by
  have hfil : ((l1.filter (fun l => l.endpoint == ep)).map (fun l => l.timestamp)).Perm
      ((l2.filter (fun l => l.endpoint == ep)).map (fun l => l.timestamp)) :=
    (h.filter _).map _
  have hp : (epTimestampsSorted l1 ep).Perm (epTimestampsSorted l2 ep) :=
    ((sortLe_perm _ _).trans hfil).trans (sortLe_perm _ _).symm
  exact List.eq_of_perm_of_sorted hp (epTimestampsSorted_sorted l1 ep)
    (epTimestampsSorted_sorted l2 ep)

theorem requestSpikeFor_perm (l1 l2 : List LogEntry) (h : l1.Perm l2) (ep : String) :
    requestSpikeFor l1 ep = requestSpikeFor l2 ep := by
  have hts := epTimestampsSorted_perm_eq l1 l2 h ep
  simp only [requestSpikeFor, normalRateOf, hts]

theorem errorClusterFor_perm (l1 l2 : List LogEntry) (h : l1.Perm l2) (ep : String) :
    errorClusterFor l1 ep = errorClusterFor l2 ep := by
  have hfil : (errTimestamps l1 ep).Perm (errTimestamps l2 ep) := by
    rw [errTimestamps, errTimestamps]
    exact (h.filter _).map _
  have hp : (sortLe (fun a b => decide (a ≤ b)) (errTimestamps l1 ep)).Perm
      (sortLe (fun a b => decide (a ≤ b)) (errTimestamps l2 ep)) :=
    ((sortLe_perm _ _).trans hfil).trans (sortLe_perm _ _).symm
  have heq : sortLe (fun a b => decide (a ≤ b)) (errTimestamps l1 ep) =
      sortLe (fun a b => decide (a ≤ b)) (errTimestamps l2 ep) :=
    List.eq_of_perm_of_sorted hp (sortLe_int_sorted _) (sortLe_int_sorted _)
  simp only [errorClusterFor, heq]

/-- C2 counterexample: swapping two same-endpoint records with statuses
200 and 404 flips the first-encountered tie-break of
`most_common_status`, so the two reports differ. -/
theorem report_not_permutation_invariant_cex :
    analyze_api_logs [c2A, c2B] ≠ analyze_api_logs [c2B, c2A] := by
  intro h
  have h2 := congrArg (fun r => r.endpoint_stats.map (fun s => s.most_common_status)) h
  exact absurd h2 (by with_unfolding_all decide)

/-- C2 (amended): re-running on the identical sequence is deterministic,
and under permutation of the input the summary and the per-endpoint
first-window scans (request spike and error cluster, which sort
timestamps ascending before scanning) are invariant; tie-broken fields
such as `most_common_status` and top-user order may change. -/
theorem summary_and_window_scans_permutation_invariant
    (raw1 raw2 : List RawRecord) (h : raw1.Perm raw2) :
    (analyze_api_logs raw1).summary = (analyze_api_logs raw2).summary ∧
    (∀ ep, requestSpikeFor (raw1.filterMap validate_log_entry) ep =
      requestSpikeFor (raw2.filterMap validate_log_entry) ep) ∧
    (∀ ep, errorClusterFor (raw1.filterMap validate_log_entry) ep =
      errorClusterFor (raw2.filterMap validate_log_entry) ep) := by
  have hv : (raw1.filterMap validate_log_entry).Perm (raw2.filterMap validate_log_entry) :=
    h.filterMap _
  exact ⟨calc_summary_perm _ _ hv,
    fun ep => requestSpikeFor_perm _ _ hv ep,
    fun ep => errorClusterFor_perm _ _ hv ep⟩

/-- Witness for C2 at the concrete swapped pair. -/
theorem summary_and_window_scans_permutation_invariant_witness :
    (analyze_api_logs [c2A, c2B]).summary = (analyze_api_logs [c2B, c2A]).summary ∧
    requestSpikeFor ([c2A, c2B].filterMap validate_log_entry) "/a" =
      requestSpikeFor ([c2B, c2A].filterMap validate_log_entry) "/a" := by
  have h := summary_and_window_scans_permutation_invariant [c2A, c2B] [c2B, c2A] (by decide)
  exact ⟨h.1, h.2.1 "/a"⟩

end ApiLogs
